import Mathlib

/-!
Shallow embedding of the feedback-driven prompt-versioning core of the
tt-blueelephant repository:

* `PromptManager`       (src/src/agent/prompt_manager.py)
* `FeedbackProcessor`   (src/src/feedback/feedback_processor.py)
* `ConversationManager` (src/src/agent/conversation_manager.py)
* the improvement-pass wiring of app.py (lines 322–332).

Python lists become Lean `List`s, dicts become structures, in-place
mutation becomes explicit state passing.  File persistence is modelled as
identity on the in-memory state (the code rewrites the whole collection on
every mutation, so the persisted state always equals the in-memory one).
`datetime.now().isoformat()` timestamps are threaded in as opaque `String`
arguments.  The Gemini call `self.model.generate_content(p).text` is an
external collaborator, modelled as a function
`oracle : String → Except String String` applied to the constructed
analysis prompt; `.error e` models any exception raised by the call (the
`except` branch of `analyze_feedbacks`), `.ok t` a returned response text.
-/

namespace BlueElephant

/-- Python `l[-n:]` for a non-negative `n`.  Note the Python corner case:
`l[-0:]` is `l[0:]`, i.e. the whole list, while for `n ≥ 1` it is the
suffix of length `min n (len l)`. -/
def pySliceLastN (l : List α) (n : Nat) : List α :=
  if n = 0 then l else l.drop (l.length - n)

/-! ## PromptManager (src/src/agent/prompt_manager.py) -/

/-- One entry of `PromptManager.prompts_history` (a JSON dict in the code). -/
structure PromptVersion where
  version : Nat
  prompt : String
  timestamp : String
  feedback_count : Nat
  improvements : List String
deriving DecidableEq, Repr

/-- The hard-coded default prompt text of
`PromptManager._initialize_default_prompt`. -/
def defaultPromptText : String :=
  "Você é um assistente virtual inteligente e prestativo.\n\nSuas características:\n- Responda de forma clara, concisa e educada\n- Use as ferramentas disponíveis quando apropriado\n- Seja proativo em ajudar o usuário\n- Mantenha um tom profissional mas amigável\n\nFerramentas disponíveis:\n1. Consulta de CEP (Brasil) - use quando o usuário mencionar CEP ou endereço\n2. Informações sobre Pokémon - use quando o usuário perguntar sobre Pokémon\n\nSempre forneça respostas completas e úteis."

/-- The state of a freshly initialized `PromptManager` with no persisted
history: `__init__` calls `_initialize_default_prompt`, which appends
version 1 with the default text. -/
def promptInit (now : String) : List PromptVersion :=
  [{ version := 1, prompt := defaultPromptText, timestamp := now,
     feedback_count := 0, improvements := ["Prompt inicial padrão"] }]

/-- Embeds `PromptManager.get_current_prompt`: returns
`self.prompts_history[-1]["prompt"]` (the empty-history branch
re-initializes the default prompt and then returns its text). -/
def get_current_prompt (hist : List PromptVersion) : String :=
  match hist.getLast? with
  | some p => p.prompt
  | none => defaultPromptText

/-- Embeds `PromptManager.get_prompt_version`: linear scan for the first entry
whose `version` field equals the argument, `None` if absent. -/
def get_prompt_version (hist : List PromptVersion) (version : Nat) : Option String :=
  (hist.find? (fun p => p.version = version)).map (·.prompt)

/-- Embeds `PromptManager.update_prompt`: appends a new version numbered
`len(prompts_history) + 1` with `feedback_count = 0` and returns the
assigned number together with the new state. -/
def update_prompt (hist : List PromptVersion) (new_prompt : String)
    (improvements : List String) (now : String) : Nat × List PromptVersion :=
  let new_version := hist.length + 1
  (new_version,
   hist ++ [{ version := new_version, prompt := new_prompt, timestamp := now,
              feedback_count := 0, improvements := improvements }])

/-- One `update_prompt` call's arguments: `(new_prompt, improvements, now)`. -/
abbrev UpdateOp := String × List String × String

/-- A sequence of `update_prompt` calls applied in order. -/
def applyUpdates (hist : List PromptVersion) (ops : List UpdateOp) : List PromptVersion :=
  ops.foldl (fun h op => (update_prompt h op.1 op.2.1 op.2.2).2) hist

/-! ## FeedbackProcessor: the feedback log
(src/src/feedback/feedback_processor.py) -/

/-- One entry of `FeedbackProcessor.feedbacks` (a JSON dict in the code). -/
structure Feedback where
  id : Nat
  timestamp : String
  user_message : String
  agent_response : String
  feedback_text : String
  rating : Int
  processed : Bool
deriving DecidableEq, Repr

/-- Embeds `FeedbackProcessor.add_feedback`: builds the entry with
`id = len(feedbacks) + 1` and `processed = False`, appends it, persists,
and returns it.  The code performs no validation of `rating` at all. -/
def add_feedback (fbs : List Feedback) (now user_message agent_response
    feedback_text : String) (rating : Int) : Feedback × List Feedback :=
  let feedback : Feedback :=
    { id := fbs.length + 1, timestamp := now, user_message := user_message,
      agent_response := agent_response, feedback_text := feedback_text,
      rating := rating, processed := false }
  (feedback, fbs ++ [feedback])

/-- One `add_feedback` call's arguments:
`(now, user_message, agent_response, feedback_text, rating)`. -/
abbrev AddOp := String × String × String × String × Int

/-- A sequence of `add_feedback` calls applied in order. -/
def applyAdds (fbs : List Feedback) (ops : List AddOp) : List Feedback :=
  ops.foldl (fun st op => (add_feedback st op.1 op.2.1 op.2.2.1 op.2.2.2.1 op.2.2.2.2).2) fbs

/-- Embeds `FeedbackProcessor.get_recent_feedbacks`:
`self.feedbacks[-limit:] if self.feedbacks else []`. -/
def get_recent_feedbacks (fbs : List Feedback) (limit : Nat) : List Feedback :=
  if fbs.isEmpty then [] else pySliceLastN fbs limit

/-! ## Python string primitives

`str.split(sep)` for a non-empty separator: scan left to right, cutting at
every non-overlapping occurrence of `sep`.  `skip` counts separator
characters still to be consumed after a match (so matches inside a matched
separator are not re-detected, exactly Python's non-overlapping rule). -/

def pySplitAux (sep : List Char) : List Char → Nat → List Char → List (List Char)
  | [], _, acc => [acc.reverse]
  | _ :: rest, skip + 1, acc => pySplitAux sep rest skip acc
  | c :: rest, 0, acc =>
    if sep.isPrefixOf (c :: rest) then
      acc.reverse :: pySplitAux sep rest (sep.length - 1) []
    else
      pySplitAux sep rest 0 (c :: acc)

/-- Python `s.split(sep)` for a non-empty `sep` (the code never splits on
an empty separator, which Python rejects). -/
def pySplit (s sep : String) : List String :=
  if sep.isEmpty then [s]
  else (pySplitAux sep.toList s.toList 0 []).map List.asString

/-- Python `sep in s`: for the non-empty separators used in the code this
holds exactly when `split` yields more than one part. -/
def pyIn (sep s : String) : Bool :=
  (pySplit s sep).length != 1

/-- Python `s.lstrip(chars)`: remove every leading character contained in
`chars`. -/
def pyLstrip (s : String) (chars : List Char) : String :=
  (s.toList.dropWhile (fun c => chars.contains c)).asString

/-- Python `s.strip()`: remove leading and trailing whitespace (the inputs
concerned are ASCII, where Python's and Lean's whitespace predicates
agree). -/
def pyStrip (s : String) : String :=
  (((s.toList.dropWhile Char.isWhitespace).reverse.dropWhile
    Char.isWhitespace).reverse).asString

/-- Python `s.startswith(pre)`. -/
def pyStartsWith (s pre : String) : Bool :=
  pre.toList.isPrefixOf s.toList

/-! ## FeedbackProcessor._parse_analysis_response -/

/-- The bullet-line extraction loop of `_parse_analysis_response`: keep the
stripped lines that are non-empty and start with `-` or `•`, with leading
bullet characters removed and the remainder stripped. -/
def extractBullets (improvements_section : String) : List String :=
  (pySplit improvements_section "\n").filterMap (fun line =>
    let l := pyStrip line
    if l ≠ "" ∧ (pyStartsWith l "-" ∨ pyStartsWith l "•") then
      some (pyStrip (pyLstrip l ['-', '•']))
    else none)

/-- Embeds `FeedbackProcessor._parse_analysis_response`.  The whole body runs
inside `try/except`; the only statements that can raise are the two `[1]`
indexings, so a missing index lands in the `except` branch
`(["Erro ao processar melhorias"], response_text)`.  If either marker is
absent from the whole text the fallback branch returns the entire response
as the new prompt. -/
def parse_analysis_response (response_text : String) : List String × String :=
  if pyIn "MELHORIAS APLICADAS:" response_text ∧ pyIn "NOVO PROMPT:" response_text then
    match (pySplit ((pySplit response_text "NOVO PROMPT:").headD "")
            "MELHORIAS APLICADAS:").get? 1,
          (pySplit response_text "NOVO PROMPT:").get? 1 with
    | some sec, some part1 =>
      (extractBullets (pyStrip sec), pyStrip part1)
    | _, _ => (["Erro ao processar melhorias"], response_text)
  else
    (["Análise automática de feedbacks aplicada"], response_text)

/-! ## FeedbackProcessor.analyze_feedbacks -/

/-- The early-return message when the feedback log is empty. -/
def noFeedbackMsg : String := "Nenhuma melhoria aplicada - sem feedbacks"

/-- The early-return message when every windowed entry is already processed. -/
def alreadyProcessedMsg : String := "Feedbacks já processados anteriormente"

/-- The `feedbacks_text` block built by `analyze_feedbacks` from the
selected entries. -/
def feedbacksText (recent_feedbacks : List Feedback) : String :=
  String.intercalate "\n\n" (recent_feedbacks.map (fun f =>
    "Feedback " ++ toString f.id ++ ":\n" ++
    "Usuário disse: " ++ f.user_message ++ "\n" ++
    "Agente respondeu: " ++ f.agent_response ++ "\n" ++
    "Feedback: " ++ f.feedback_text ++ "\n" ++
    "Avaliação: " ++ toString f.rating ++ "/5"))

/-- The `analysis_prompt` f-string handed to the completion service. -/
def analysisPrompt (current_prompt : String) (recent_feedbacks : List Feedback) : String :=
  "Você é um especialista em melhorar prompts de sistemas de IA.\n\nAnalise os feedbacks abaixo sobre as respostas de um assistente virtual e sugira melhorias específicas para o prompt do sistema.\n\nPROMPT ATUAL:\n"
  ++ current_prompt ++
  "\n\nFEEDBACKS RECEBIDOS:\n"
  ++ feedbacksText recent_feedbacks ++
  "\n\nSua tarefa:\n1. Identifique padrões e problemas nos feedbacks\n2. Sugira melhorias específicas e acionáveis\n3. Reescreva o prompt incorporando essas melhorias\n4. Mantenha a estrutura e funcionalidades existentes\n5. Seja específico sobre o que mudou\n\nForneça sua resposta no seguinte formato:\n\nMELHORIAS APLICADAS:\n- [Lista de melhorias específicas, uma por linha]\n\nNOVO PROMPT:\n[O prompt reescrito e melhorado]\n"

/-- Models `f["processed"] = True` on one entry. -/
def setProcessed (f : Feedback) : Feedback := { f with processed := true }

/-- The marking loop of `analyze_feedbacks`: the selected entries are the
unprocessed members of the window `feedbacks[-recent_count:]`, and they are
mutated in place, so afterwards every entry of that window suffix is
processed (already-processed entries are unchanged) and the prefix outside
the window is untouched. -/
def markWindowProcessed (fbs : List Feedback) (recent_count : Nat) : List Feedback :=
  fbs.take (fbs.length - (pySliceLastN fbs recent_count).length) ++
    (pySliceLastN fbs recent_count).map setProcessed

/-- Embeds `FeedbackProcessor.analyze_feedbacks`.  Returns
`(new_prompt, improvements, new feedback state)`.  The `try` block covers
the `generate_content` call and `.text` access (the oracle) — the parse
helper and the marking loop cannot raise — so `.error e` lands in the
`except` branch, which returns the current prompt with the f-string
`"Erro na análise: {e}"` and marks nothing. -/
def analyze_feedbacks (fbs : List Feedback) (current_prompt : String)
    (recent_count : Nat) (oracle : String → Except String String) :
    String × List String × List Feedback :=
  if fbs.isEmpty then
    (current_prompt, [noFeedbackMsg], fbs)
  else
    let recent_feedbacks := (pySliceLastN fbs recent_count).filter (fun f => !f.processed)
    if recent_feedbacks.isEmpty then
      (current_prompt, [alreadyProcessedMsg], fbs)
    else
      match oracle (analysisPrompt current_prompt recent_feedbacks) with
      | .ok result_text =>
        let (improvements, new_prompt) := parse_analysis_response result_text
        (new_prompt, improvements, markWindowProcessed fbs recent_count)
      | .error e =>
        (current_prompt, ["Erro na análise: " ++ e], fbs)

/-! ## The improvement pass (app.py lines 322–332)

app.py reads the current prompt, calls `analyze_feedbacks`, and appends a
new version through `update_prompt` only when the returned prompt differs
from the current one. -/

/-- Combined state and result of one improvement pass. -/
structure PassOutcome where
  feedbacks : List Feedback
  history : List PromptVersion
  returned_prompt : String
  improvements : List String
deriving DecidableEq, Repr

/-- The improvement pass as wired in app.py: `get_current_prompt` →
`analyze_feedbacks` → `update_prompt` iff `new_prompt != current_prompt`. -/
def runImprovementPass (fbs : List Feedback) (hist : List PromptVersion)
    (recent_count : Nat) (oracle : String → Except String String)
    (now : String) : PassOutcome :=
  let current_prompt := get_current_prompt hist
  let res := analyze_feedbacks fbs current_prompt recent_count oracle
  if res.1 ≠ current_prompt then
    { feedbacks := res.2.2, history := (update_prompt hist res.1 res.2.1 now).2,
      returned_prompt := res.1, improvements := res.2.1 }
  else
    { feedbacks := res.2.2, history := hist,
      returned_prompt := res.1, improvements := res.2.1 }

/-! ## ConversationManager (src/src/agent/conversation_manager.py) -/

/-- One message dict appended by `ConversationManager.add_message`.  The
`tools_used`/`tools_output` keys are added only when the arguments are
truthy (`if tools_used:`), so an empty list or empty string argument leaves
the key absent (`none`). -/
structure Message where
  role : String
  content : String
  timestamp : String
  tools_used : Option (List String)
  tools_output : Option String
deriving DecidableEq, Repr

/-- One session dict of `ConversationManager.sessions`.  `last_updated` is
absent until the first `add_message`. -/
structure Session where
  session_id : String
  started_at : String
  messages : List Message
  message_count : Nat
  last_updated : Option String
deriving DecidableEq, Repr

/-- The mutable state of a `ConversationManager`. -/
structure ConvState where
  sessions : List Session
  current_session_id : Option String
  current_session_index : Option Nat
deriving DecidableEq, Repr

/-- The state right after `__init__` with persisted sessions `ss` loaded
from disk: both current-session fields are `None`. -/
def convInit (ss : List Session) : ConvState :=
  { sessions := ss, current_session_id := none, current_session_index := none }

/-- Embeds `ConversationManager.start_new_session`: appends an empty session and
points the current index at it.  The fresh `uuid4()` and timestamp are
threaded in. -/
def start_new_session (st : ConvState) (newId now : String) : ConvState :=
  let new_session : Session :=
    { session_id := newId, started_at := now, messages := [],
      message_count := 0, last_updated := none }
  { sessions := st.sessions ++ [new_session],
    current_session_id := some newId,
    current_session_index := some st.sessions.length }

/-- In-place update of the `i`-th element of a Python list. -/
def listModify (f : α → α) : List α → Nat → List α
  | [], _ => []
  | x :: xs, 0 => f x :: xs
  | x :: xs, n + 1 => x :: listModify f xs n

/-- Embeds `ConversationManager.add_message`: builds the message dict, then under
`if self.current_session_index is not None:` appends it to the current
session, recomputes `message_count`, stamps `last_updated` and persists.
When no current session exists the whole body after the dict construction
is skipped — a silent no-op. -/
def add_message (st : ConvState) (role content : String)
    (tools_used : Option (List String)) (tools_output : Option String)
    (now : String) : ConvState :=
  let message : Message :=
    { role := role, content := content, timestamp := now,
      tools_used := match tools_used with
        | some l => if l.isEmpty then none else some l
        | none => none,
      tools_output := match tools_output with
        | some s => if s.isEmpty then none else some s
        | none => none }
  match st.current_session_index with
  | none => st
  | some i =>
    { st with sessions := listModify (fun s =>
        { s with messages := s.messages ++ [message],
                 message_count := s.messages.length + 1,
                 last_updated := some now }) st.sessions i }

/-- Embeds `ConversationManager.get_current_messages`: the current session's
message list, `[]` when no current session exists. -/
def get_current_messages (st : ConvState) : List Message :=
  match st.current_session_index with
  | some i => ((st.sessions.get? i).map (·.messages)).getD []
  | none => []

/-- Embeds `ConversationManager.get_all_sessions`: the sessions with at least one
message. -/
def get_all_sessions (st : ConvState) : List Session :=
  st.sessions.filter (fun s => s.message_count > 0)

/-- Result of a Python call that can raise `TypeError`; the error carries
the state at the moment of the raise (earlier statements have already
mutated it). -/
inductive PyResult (α : Type) where
  | ok : α → PyResult α
  | typeError : α → PyResult α
deriving DecidableEq, Repr

/-- Holds exactly on the raising outcome. -/
def PyResult.isTypeError : PyResult α → Bool
  | .ok _ => false
  | .typeError _ => true

/-- Embeds `ConversationManager.delete_session`: first rebinds `self.sessions` to
the entries whose id differs, then evaluates
`self.current_session_index >= len(self.sessions)` — which raises
`TypeError` when the index is `None` (`NoneType >= int`), after the
session list has already been filtered.  Otherwise the index is clamped to
the last remaining session, or to `None` when none remain. -/
def delete_session (st : ConvState) (session_id : String) : PyResult ConvState :=
  let sessions' := st.sessions.filter (fun s => s.session_id ≠ session_id)
  match st.current_session_index with
  | none => .typeError { st with sessions := sessions' }
  | some i =>
    let idx' := if sessions'.length ≤ i then
        (if sessions'.isEmpty then none else some (sessions'.length - 1))
      else some i
    .ok { st with sessions := sessions', current_session_index := idx' }

/-! ## Auxiliary definitions used by the verification -/

/-- The versions appended by a sequence of `update_prompt` calls on top of
`k` existing versions: the i-th call is assigned version `k + i`. -/
def buildVersions (k : Nat) : List UpdateOp → List PromptVersion
  | [] => []
  | op :: rest =>
    { version := k + 1, prompt := op.1, timestamp := op.2.2,
      feedback_count := 0, improvements := op.2.1 } :: buildVersions (k + 1) rest

/-- The entries appended by a sequence of `add_feedback` calls on top of
`k` existing entries: the i-th call is assigned id `k + i`. -/
def buildFeedbacks (k : Nat) : List AddOp → List Feedback
  | [] => []
  | op :: rest =>
    { id := k + 1, timestamp := op.1, user_message := op.2.1,
      agent_response := op.2.2.1, feedback_text := op.2.2.2.1,
      rating := op.2.2.2.2, processed := false } :: buildFeedbacks (k + 1) rest

/-- A concrete unprocessed feedback entry used in concrete evaluations. -/
def sampleFeedback : Feedback :=
  { id := 1, timestamp := "t0", user_message := "q", agent_response := "a",
    feedback_text := "ruim", rating := 2, processed := false }

/-- A concrete persisted session, as loaded by `__init__` before any
`start_new_session` call. -/
def sampleSession : Session :=
  { session_id := "s1", started_at := "t0", messages := [], message_count := 0,
    last_updated := none }

/-- The message appended in the two-session deletion scenario. -/
def scnMsg : Message :=
  { role := "user", content := "hi", timestamp := "t2",
    tools_used := none, tools_output := none }

/-- Session "A" of the deletion scenario after its one message. -/
def scnSessionA : Session :=
  { session_id := "A", started_at := "t1", messages := [scnMsg],
    message_count := 1, last_updated := some "t2" }

/-- Session "B" of the deletion scenario (current, still empty). -/
def scnSessionB : Session :=
  { session_id := "B", started_at := "t3", messages := [], message_count := 0,
    last_updated := none }

/-- Deletion scenario: start session A, add one message, start session B
(which becomes current). -/
def scnState : ConvState :=
  start_new_session
    (add_message (start_new_session (convInit []) "A" "t1") "user" "hi" none none "t2")
    "B" "t3"

/-- The state `delete_session` produces when the current (last) session is
removed and `rest` remains: the current index is redirected to the last
remaining session, or unset when none remain. -/
def afterDelete (st : ConvState) (rest : List Session) : ConvState :=
  { st with sessions := rest,
            current_session_index :=
              if rest.isEmpty then none else some (rest.length - 1) }

/-- A model response in which both markers occur but the improvements
marker only occurs after the prompt marker: the `[1]` indexing in the code
raises `IndexError` on this input. -/
def badOrderResponse : String := "NOVO PROMPT:\nX\nMELHORIAS APLICADAS:\n- a"

/-- A well-formed model response with two bullet improvements. -/
def goodResponse : String :=
  "MELHORIAS APLICADAS:\n- primeira\n• segunda\nnada\nNOVO PROMPT:\n  novo texto  "

/-! ## Lemmas about the prompt store -/

lemma applyUpdates_eq_append (ops : List UpdateOp) :
    ∀ hist : List PromptVersion,
      applyUpdates hist ops = hist ++ buildVersions hist.length ops := by
  induction ops with
  | nil => intro hist; simp [applyUpdates, buildVersions]
  | cons op rest ih =>
    intro hist
    have h1 : applyUpdates hist (op :: rest) =
        applyUpdates (update_prompt hist op.1 op.2.1 op.2.2).2 rest := rfl
    rw [h1, ih]
    simp [update_prompt, buildVersions]

lemma buildVersions_length (ops : List UpdateOp) :
    ∀ k, (buildVersions k ops).length = ops.length := by
  induction ops with
  | nil => intro k; simp [buildVersions]
  | cons op rest ih => intro k; simp [buildVersions, ih]

lemma buildVersions_map_version (ops : List UpdateOp) :
    ∀ k, (buildVersions k ops).map (·.version) = List.range' (k + 1) ops.length := by
  induction ops with
  | nil => intro k; simp [buildVersions]
  | cons op rest ih =>
    intro k
    simp [buildVersions, ih, List.range'_succ, buildVersions_length]

lemma buildVersions_map_prompt (ops : List UpdateOp) :
    ∀ k, (buildVersions k ops).map (·.prompt) = ops.map (·.1) := by
  induction ops with
  | nil => intro k; simp [buildVersions]
  | cons op rest ih => intro k; simp [buildVersions, ih]

lemma buildVersions_map_feedback_count (ops : List UpdateOp) :
    ∀ k, (buildVersions k ops).map (·.feedback_count) =
      List.replicate ops.length 0 := by
  induction ops with
  | nil => intro k; simp [buildVersions]
  | cons op rest ih => intro k; simp [buildVersions, ih, List.replicate_succ]

lemma applyUpdates_map_version (now0 : String) (ops : List UpdateOp) :
    (applyUpdates (promptInit now0) ops).map (·.version) =
      List.range' 1 (ops.length + 1) := by
  rw [applyUpdates_eq_append]
  simp [promptInit, buildVersions_map_version, List.range'_succ]

lemma applyUpdates_map_prompt (now0 : String) (ops : List UpdateOp) :
    (applyUpdates (promptInit now0) ops).map (·.prompt) =
      defaultPromptText :: ops.map (·.1) := by
  rw [applyUpdates_eq_append]
  simp [promptInit, buildVersions_map_prompt]

lemma applyUpdates_map_feedback_count (now0 : String) (ops : List UpdateOp) :
    (applyUpdates (promptInit now0) ops).map (·.feedback_count) =
      List.replicate (ops.length + 1) 0 := by
  rw [applyUpdates_eq_append]
  simp [promptInit, buildVersions_map_feedback_count, List.replicate_succ]

lemma get_current_prompt_eq_getLast? (hist : List PromptVersion) :
    get_current_prompt hist =
      ((hist.map (·.prompt)).getLast?).getD defaultPromptText := by
  unfold get_current_prompt
  cases h : hist.getLast? with
  | none =>
    have : hist = [] := by
      cases hist with
      | nil => rfl
      | cons a l => rw [List.getLast?_eq_getElem?] at h; simp at h
    subst this; simp
  | some v =>
    have : (hist.map (·.prompt)).getLast? = some v.prompt := by
      rw [List.getLast?_eq_getElem?] at h ⊢
      simp only [List.getElem?_map, List.length_map, h, Option.map_some']
    rw [this, Option.getD_some]

/-- C3-supporting: `getCurrent` after a sequence of appends is the text of
the most recent append (default if none). -/
lemma applyUpdates_get_current (now0 : String) (ops : List UpdateOp) :
    get_current_prompt (applyUpdates (promptInit now0) ops) =
      (ops.map (·.1)).getLastD defaultPromptText := by
  rw [get_current_prompt_eq_getLast?, applyUpdates_map_prompt,
    List.getLast?_cons, Option.getD_some, List.getLastD_eq_getLast?]

/-- Lookup over a list whose version fields are exactly
`s, s+1, …, s+len-1` is lookup by offset. -/
lemma find_version_of_range (l : List PromptVersion) :
    ∀ s : Nat, l.map (·.version) = List.range' s l.length →
    ∀ n : Nat, l.find? (fun p => p.version = n) =
      (if s ≤ n ∧ n < s + l.length then l.get? (n - s) else none) := by
  induction l with
  | nil => intro s _ n; simp
  | cons p rest ih =>
    intro s hmap n
    rw [List.length_cons, List.range'_succ, List.map_cons] at hmap
    simp only [List.cons.injEq] at hmap
    obtain ⟨hv, hrest⟩ := hmap
    simp only [List.length_cons]
    by_cases hn : p.version = n
    · rw [List.find?_cons_of_pos _ (by simp [hn])]
      have hns : n = s := by omega
      subst hns
      have h0 : n - n = 0 := by omega
      rw [if_pos (by constructor <;> omega)]
      simp [h0]
    · rw [List.find?_cons_of_neg _ (by simp [hn])]
      rw [ih (s + 1) hrest n]
      have hns : n ≠ s := fun h => hn (by omega)
      by_cases hcond : s + 1 ≤ n ∧ n < s + 1 + rest.length
      · rw [if_pos hcond, if_pos (by omega)]
        have : n - s = (n - (s + 1)) + 1 := by omega
        rw [this]
        rfl
      · rw [if_neg hcond, if_neg (by omega)]

/-! ## Claim C3 -/

/-- C3: for every sequence of `append` (`update_prompt`) calls starting
from the freshly initialized store, the stored version numbers are exactly
1, 2, 3, … in call order with no gaps or reordering (the i-th append is
assigned count-of-existing-versions + 1 = i + 1), every appended version
has `feedback_count = 0`, and `get_current_prompt` returns the text of the
most recently appended version (the default text if none was appended). -/
theorem prompt_versions_dense (now0 : String) (ops : List UpdateOp) :
    (applyUpdates (promptInit now0) ops).map (·.version) =
      List.range' 1 (ops.length + 1) ∧
    (applyUpdates (promptInit now0) ops).map (·.prompt) =
      defaultPromptText :: ops.map (·.1) ∧
    (applyUpdates (promptInit now0) ops).map (·.feedback_count) =
      List.replicate (ops.length + 1) 0 ∧
    get_current_prompt (applyUpdates (promptInit now0) ops) =
      (ops.map (·.1)).getLastD defaultPromptText :=
  ⟨applyUpdates_map_version now0 ops, applyUpdates_map_prompt now0 ops,
   applyUpdates_map_feedback_count now0 ops, applyUpdates_get_current now0 ops⟩

/-! ## Claim C7 -/

/-- C7: on every store state reachable by appends, `get_prompt_version n`
returns exactly the text of the n-th version (the default for n = 1, the
text of the (n-1)-th append otherwise) whenever `1 ≤ n ≤` current version,
and `none` — not an exception — for every `n` beyond the current
version. -/
theorem get_version_exact (now0 : String) (ops : List UpdateOp) (n : Nat) :
    (1 ≤ n → n ≤ ops.length + 1 →
      get_prompt_version (applyUpdates (promptInit now0) ops) n =
        (defaultPromptText :: ops.map (·.1)).get? (n - 1)) ∧
    (ops.length + 1 < n →
      get_prompt_version (applyUpdates (promptInit now0) ops) n = none) := by
  have hlen : (applyUpdates (promptInit now0) ops).length = ops.length + 1 := by
    rw [applyUpdates_eq_append]
    simp [promptInit, buildVersions_length]
  have hfind := find_version_of_range (applyUpdates (promptInit now0) ops) 1
    (by rw [hlen, applyUpdates_map_version]) n
  rw [hlen] at hfind
  constructor
  · intro h1 h2
    unfold get_prompt_version
    rw [hfind, if_pos (by omega)]
    rw [← List.get?_map, applyUpdates_map_prompt]
  · intro h
    unfold get_prompt_version
    rw [hfind, if_neg (by omega)]
    rfl

/-- C7 witness: on the store with one append, version 2 is that append's
text and version 5 is absent. -/
theorem get_version_exact_witness :
    get_prompt_version (applyUpdates (promptInit "t0") [("p2", ["i"], "t1")]) 2 =
      some "p2" ∧
    get_prompt_version (applyUpdates (promptInit "t0") [("p2", ["i"], "t1")]) 5 =
      none := by
  constructor
  · rw [(get_version_exact "t0" [("p2", ["i"], "t1")] 2).1 (by decide) (by decide)]
    rfl
  · exact (get_version_exact "t0" [("p2", ["i"], "t1")] 5).2 (by decide)

/-! ## Lemmas about the feedback log -/

lemma applyAdds_eq_append (ops : List AddOp) :
    ∀ fbs : List Feedback,
      applyAdds fbs ops = fbs ++ buildFeedbacks fbs.length ops := by
  induction ops with
  | nil => intro fbs; simp [applyAdds, buildFeedbacks]
  | cons op rest ih =>
    intro fbs
    have h1 : applyAdds fbs (op :: rest) =
        applyAdds (add_feedback fbs op.1 op.2.1 op.2.2.1 op.2.2.2.1 op.2.2.2.2).2 rest := rfl
    rw [h1, ih]
    simp [add_feedback, buildFeedbacks]

lemma buildFeedbacks_map_id (ops : List AddOp) :
    ∀ k, (buildFeedbacks k ops).map (·.id) = List.range' (k + 1) ops.length := by
  induction ops with
  | nil => intro k; simp [buildFeedbacks]
  | cons op rest ih => intro k; simp [buildFeedbacks, ih, List.range'_succ]

lemma buildFeedbacks_map_rating (ops : List AddOp) :
    ∀ k, (buildFeedbacks k ops).map (·.rating) = ops.map (·.2.2.2.2) := by
  induction ops with
  | nil => intro k; simp [buildFeedbacks]
  | cons op rest ih => intro k; simp [buildFeedbacks, ih]

lemma buildFeedbacks_processed (ops : List AddOp) :
    ∀ k, ∀ f ∈ buildFeedbacks k ops, f.processed = false := by
  induction ops with
  | nil => intro k f hf; simp [buildFeedbacks] at hf
  | cons op rest ih =>
    intro k f hf
    rcases (List.mem_cons.mp hf) with h | h
    · rw [h]
    · exact ih (k + 1) f h

/-! ## Claim C5 (corrected) -/

/-- C5 counterexample: a rating of 7 — outside [1,5] — is not rejected:
`add_feedback` succeeds and appends the entry with that rating, so the
claimed invalid-argument rejection with no state change is false. -/
theorem add_feedback_out_of_range_accepted :
    add_feedback [] "2024-01-01T00:00:00" "q" "a" "ruim" 7 =
      ({ id := 1, timestamp := "2024-01-01T00:00:00", user_message := "q",
         agent_response := "a", feedback_text := "ruim", rating := 7,
         processed := false },
       [{ id := 1, timestamp := "2024-01-01T00:00:00", user_message := "q",
          agent_response := "a", feedback_text := "ruim", rating := 7,
          processed := false }]) := rfl

/-- C5 amended: `add_feedback` performs no rating validation at all: every
call succeeds — for ratings inside or outside [1,5] alike — appending an
entry with the next sequential id, `processed = false`, and the rating
stored verbatim. -/
theorem add_feedback_no_validation (ops : List AddOp) :
    (applyAdds [] ops).map (·.id) = List.range' 1 ops.length ∧
    (applyAdds [] ops).map (·.rating) = ops.map (·.2.2.2.2) ∧
    ∀ f ∈ applyAdds [] ops, f.processed = false := by
  rw [applyAdds_eq_append]
  refine ⟨?_, ?_, ?_⟩
  · simp [buildFeedbacks_map_id]
  · simp [buildFeedbacks_map_rating]
  · simpa using buildFeedbacks_processed ops 0

/-! ## Claim C8 (corrected) -/

/-- C8 counterexample: with one stored entry, `recent(0)` returns that
entry — the Python slice `feedbacks[-0:]` is the whole list — so the
result has 1 > 0 entries, refuting "returns at most limit entries" at the
non-negative limit 0. -/
theorem recent_zero_returns_all :
    get_recent_feedbacks [sampleFeedback] 0 = [sampleFeedback] := rfl

/-- C8 amended: for every limit ≥ 1, `get_recent_feedbacks` returns the
last `min limit total` entries in insertion order (the suffix of the log);
for limit = 0 it returns the entire log. -/
theorem recent_window_suffix (fbs : List Feedback) (limit : Nat)
    (h : 1 ≤ limit) :
    get_recent_feedbacks fbs limit = fbs.drop (fbs.length - limit) ∧
    (get_recent_feedbacks fbs limit).length = min limit fbs.length := by
  unfold get_recent_feedbacks pySliceLastN
  rcases fbs with _ | ⟨f, rest⟩
  · simp
  · rw [if_neg (by simp), if_neg (by omega)]
    refine ⟨rfl, ?_⟩
    rw [List.length_drop]
    omega

/-- C8 witness: the amended statement at a one-entry log and limit 1. -/
theorem recent_window_suffix_witness :
    get_recent_feedbacks [sampleFeedback] 1 = [sampleFeedback] ∧
    (get_recent_feedbacks [sampleFeedback] 1).length = min 1 1 := by
  have h := recent_window_suffix [sampleFeedback] 1 (by decide)
  exact ⟨by rw [h.1]; rfl, by simpa using h.2⟩

/-! ## Claim C9 -/

/-- C9: when no current session exists (`current_session_index` is
`None`), `add_message` is a silent no-op: it raises nothing, appends the
turn to no session, and leaves the whole state (and hence the persisted
state) unchanged. -/
theorem add_message_no_session_noop (st : ConvState)
    (role content now : String) (tools_used : Option (List String))
    (tools_output : Option String)
    (h : st.current_session_index = none) :
    add_message st role content tools_used tools_output now = st := by
  unfold add_message
  rw [h]

/-- C9 witness: on the freshly loaded manager no message lands anywhere. -/
theorem add_message_no_session_noop_witness :
    add_message (convInit [sampleSession]) "user" "hi" none none "t1" =
      convInit [sampleSession] :=
  add_message_no_session_noop (convInit [sampleSession]) "user" "hi" "t1"
    none none rfl

/-! ## Claim C10 -/

/-- C10: `delete_session` is not total at the public interface: whenever
no current session exists the comparison
`self.current_session_index >= len(self.sessions)` raises `TypeError`
(`NoneType >= int`) for every argument id — after the session list has
already been filtered — instead of returning or signalling NotFound. -/
theorem delete_session_none_index_raises (st : ConvState) (sid : String)
    (h : st.current_session_index = none) :
    (delete_session st sid).isTypeError = true ∧
    delete_session st sid =
      .typeError { st with
        sessions := st.sessions.filter (fun s => s.session_id ≠ sid) } := by
  unfold delete_session
  rw [h]
  exact ⟨rfl, rfl⟩

/-- C10 witness: deleting on the freshly loaded manager raises. -/
theorem delete_session_none_index_raises_witness :
    (delete_session (convInit [sampleSession]) "s1").isTypeError = true ∧
    delete_session (convInit [sampleSession]) "s1" =
      .typeError (convInit []) := by
  have h := delete_session_none_index_raises (convInit [sampleSession]) "s1" rfl
  exact ⟨h.1, by rw [h.2]; decide⟩

/-! ## Claim C6 (corrected) -/

/-- C6 counterexample: with historical session "A" (one message) and
current session "B", deleting the current session "B" does not leave the
current session undefined: the index is redirected to session "A", so
`get_current_messages` returns A's messages and a subsequent `add_message`
lands inside the historical session "A". -/
theorem delete_current_session_counterexample :
    delete_session scnState "B" =
      .ok { sessions := [scnSessionA], current_session_id := some "B",
            current_session_index := some 0 } ∧
    get_current_messages
      { sessions := [scnSessionA], current_session_id := some "B",
        current_session_index := some 0 } = [scnMsg] ∧
    (add_message
      { sessions := [scnSessionA], current_session_id := some "B",
        current_session_index := some 0 }
      "user" "again" none none "t5").sessions =
      [{ session_id := "A", started_at := "t1",
         messages := [scnMsg,
           { role := "user", content := "again", timestamp := "t5",
             tools_used := none, tools_output := none }],
         message_count := 2, last_updated := some "t5" }] := by
  refine ⟨by decide, by decide, by decide⟩

/-- C6 amended: deleting the current (last) session by its id removes it;
the current session becomes undefined (`currentMessages` empty) only when
no session remains — otherwise the current index is redirected to the last
remaining historical session, whose messages `currentMessages` then
returns. -/
theorem delete_current_session_redirects (rest : List Session)
    (cur : Session) (st : ConvState)
    (hs : st.sessions = rest ++ [cur])
    (hi : st.current_session_index = some rest.length)
    (hrest : ∀ s ∈ rest, s.session_id ≠ cur.session_id) :
    delete_session st cur.session_id = .ok (afterDelete st rest) ∧
    (rest.isEmpty → (afterDelete st rest).current_session_index = none) ∧
    get_current_messages (afterDelete st rest) =
      ((rest.getLast?).map (·.messages)).getD [] := by
  have hfilter : st.sessions.filter (fun s => s.session_id ≠ cur.session_id) = rest := by
    rw [hs, List.filter_append]
    have h1 : rest.filter (fun s => s.session_id ≠ cur.session_id) = rest :=
      List.filter_eq_self.mpr (fun s hsmem => by simpa using hrest s hsmem)
    have h2 : [cur].filter (fun s => s.session_id ≠ cur.session_id) = [] := by
      simp
    rw [h1, h2, List.append_nil]
  refine ⟨?_, ?_, ?_⟩
  · unfold delete_session
    rw [hfilter, hi]
    simp only [le_refl, if_pos]
    unfold afterDelete
    rcases hr : rest with _ | ⟨a, l⟩ <;> simp
  · intro hre
    unfold afterDelete
    rw [if_pos hre]
  · unfold get_current_messages afterDelete
    rcases hr : rest with _ | ⟨a, l⟩
    · simp
    · simp only [List.isEmpty_cons, if_neg]
      rw [List.getLast?_eq_getElem?]
      simp [List.get?_eq_getElem?]

/-- C6 witness: the amended statement at the concrete two-session
scenario. -/
theorem delete_current_session_redirects_witness :
    delete_session scnState "B" = .ok (afterDelete scnState [scnSessionA]) ∧
    get_current_messages (afterDelete scnState [scnSessionA]) = [scnMsg] := by
  have h := delete_current_session_redirects [scnSessionA] scnSessionB scnState
    (by decide) (by decide) (by decide)
  refine ⟨?_, ?_⟩
  · have hb : scnSessionB.session_id = "B" := rfl
    rw [← hb]
    exact h.1
  · rw [h.2.2]
    decide

/-! ## Lemmas about the response parser -/

lemma pySplitAux_ne_nil (sep : List Char) :
    ∀ (l : List Char) (skip : Nat) (acc : List Char),
      pySplitAux sep l skip acc ≠ [] := by
  intro l
  induction l with
  | nil => intro skip acc; simp [pySplitAux]
  | cons c rest ih =>
    intro skip acc
    cases skip with
    | zero =>
      unfold pySplitAux
      by_cases h : sep.isPrefixOf (c :: rest)
      · rw [if_pos h]; simp
      · rw [if_neg h]; exact ih 0 (c :: acc)
    | succ k => exact ih k acc

lemma pySplit_ne_nil (s sep : String) : pySplit s sep ≠ [] := by
  unfold pySplit
  by_cases h : sep.isEmpty
  · rw [if_pos h]; simp
  · rw [if_neg h]
    intro hc
    exact pySplitAux_ne_nil sep.toList s.toList 0 [] (List.map_eq_nil.mp hc)

/-- When Python's `sep in s` holds, `split` has a part at index 1. -/
lemma get?_one_of_pyIn {sep s : String} (h : pyIn sep s = true) :
    (pySplit s sep).get? 1 = some ((pySplit s sep).getD 1 "") := by
  unfold pyIn at h
  rcases hl : pySplit s sep with _ | ⟨a, _ | ⟨b, r⟩⟩
  · exact absurd hl (pySplit_ne_nil s sep)
  · rw [hl] at h; simp at h
  · rfl

/-! ## Claim C4 (corrected) -/

/-- C4 counterexample: in this response both literal markers are present,
yet the parser does not extract the bullet list and the text after the
prompt marker: because "MELHORIAS APLICADAS:" occurs only after
"NOVO PROMPT:", the `[1]` indexing raises `IndexError` and the `except`
branch returns the error note with the whole response instead. -/
theorem parse_markers_out_of_order :
    pyIn "MELHORIAS APLICADAS:" badOrderResponse = true ∧
    pyIn "NOVO PROMPT:" badOrderResponse = true ∧
    parse_analysis_response badOrderResponse =
      (["Erro ao processar melhorias"], badOrderResponse) := by
  refine ⟨by decide, by decide, by decide⟩

/-- C4 amended: the parser never raises, and behaves by cases: if either
marker is missing it returns the whole response with the synthetic note;
if both are present and the improvements marker occurs before the first
prompt-marker occurrence, it returns the bullet-prefixed lines of the
improvements section together with the trimmed text between the first
prompt-marker occurrence and the next one (or the end); if both are
present but the improvements marker occurs only after the first
prompt-marker occurrence, the `[1]` indexing raises `IndexError` internally
and the caught-exception note is returned with the whole response. -/
theorem parse_response_cases (t : String) :
    (¬ (pyIn "MELHORIAS APLICADAS:" t = true ∧ pyIn "NOVO PROMPT:" t = true) →
      parse_analysis_response t =
        (["Análise automática de feedbacks aplicada"], t)) ∧
    (pyIn "MELHORIAS APLICADAS:" t = true → pyIn "NOVO PROMPT:" t = true →
      pyIn "MELHORIAS APLICADAS:" ((pySplit t "NOVO PROMPT:").headD "") = false →
      parse_analysis_response t = (["Erro ao processar melhorias"], t)) ∧
    (pyIn "MELHORIAS APLICADAS:" t = true → pyIn "NOVO PROMPT:" t = true →
      pyIn "MELHORIAS APLICADAS:" ((pySplit t "NOVO PROMPT:").headD "") = true →
      parse_analysis_response t =
        (extractBullets
          (pyStrip ((pySplit ((pySplit t "NOVO PROMPT:").headD "")
              "MELHORIAS APLICADAS:").getD 1 "")),
         pyStrip ((pySplit t "NOVO PROMPT:").getD 1 ""))) := by
  refine ⟨?_, ?_, ?_⟩
  · intro h
    unfold parse_analysis_response
    rw [if_neg (by simpa using h)]
  · intro h1 h2 h3
    unfold parse_analysis_response
    rw [if_pos ⟨h1, h2⟩]
    have hnone : (pySplit ((pySplit t "NOVO PROMPT:").headD "")
        "MELHORIAS APLICADAS:").get? 1 = none := by
      unfold pyIn at h3
      rcases hl : pySplit ((pySplit t "NOVO PROMPT:").headD "")
          "MELHORIAS APLICADAS:" with _ | ⟨a, _ | ⟨b, r⟩⟩
      · rfl
      · rfl
      · rw [hl] at h3; simp at h3
    rw [hnone]
  · intro h1 h2 h3
    unfold parse_analysis_response
    rw [if_pos ⟨h1, h2⟩]
    rw [get?_one_of_pyIn h3, get?_one_of_pyIn h2]

/-- C4 witness: the amended statement at a well-formed response, a
marker-free response, and the out-of-order response. -/
theorem parse_response_cases_witness :
    parse_analysis_response goodResponse = (["primeira", "segunda"], "novo texto") ∧
    parse_analysis_response "sem marcadores" =
      (["Análise automática de feedbacks aplicada"], "sem marcadores") ∧
    parse_analysis_response badOrderResponse =
      (["Erro ao processar melhorias"], badOrderResponse) := by
  refine ⟨?_, ?_, ?_⟩
  · rw [(parse_response_cases goodResponse).2.2 (by decide) (by decide) (by decide)]
    decide
  · rw [(parse_response_cases "sem marcadores").1 (by decide)]
  · rw [(parse_response_cases badOrderResponse).2.1 (by decide) (by decide) (by decide)]

/-! ## Lemmas about the improvement pass -/

lemma pySliceLastN_nil (n : Nat) : pySliceLastN ([] : List Feedback) n = [] := by
  unfold pySliceLastN
  split <;> simp

lemma pySliceLastN_length_le (l : List Feedback) (n : Nat) :
    (pySliceLastN l n).length ≤ l.length := by
  unfold pySliceLastN
  split
  · exact le_refl _
  · rw [List.length_drop]; omega

lemma markWindowProcessed_length (fbs : List Feedback) (n : Nat) :
    (markWindowProcessed fbs n).length = fbs.length := by
  have h := pySliceLastN_length_le fbs n
  unfold markWindowProcessed
  rw [List.length_append, List.length_take, List.length_map]
  omega

/-- The window of the marked state is the marked window. -/
lemma pySliceLastN_markWindowProcessed (fbs : List Feedback) (n : Nat) :
    pySliceLastN (markWindowProcessed fbs n) n =
      (pySliceLastN fbs n).map setProcessed := by
  by_cases h0 : n = 0
  · subst h0
    unfold markWindowProcessed pySliceLastN
    simp
  · have hslice : pySliceLastN fbs n = fbs.drop (fbs.length - n) := by
      unfold pySliceLastN; rw [if_neg h0]
    have hk : (pySliceLastN fbs n).length = fbs.length - (fbs.length - n) := by
      rw [hslice, List.length_drop]
    have hmark : markWindowProcessed fbs n =
        fbs.take (fbs.length - n) ++ (fbs.drop (fbs.length - n)).map setProcessed := by
      unfold markWindowProcessed
      rw [hk, hslice]
      congr 2
      omega
    have hs2 : pySliceLastN (markWindowProcessed fbs n) n =
        (markWindowProcessed fbs n).drop ((markWindowProcessed fbs n).length - n) := by
      unfold pySliceLastN; rw [if_neg h0]
    rw [hs2, hslice, markWindowProcessed_length, hmark]
    exact List.drop_left' (by rw [List.length_take]; omega)

lemma filter_unprocessed_map_setProcessed (l : List Feedback) :
    (l.map setProcessed).filter (fun f => !f.processed) = [] := by
  rw [List.filter_eq_nil]
  intro a ha
  rcases List.mem_map.mp ha with ⟨b, _, rfl⟩
  simp [setProcessed]

/-- A pass whose window holds no unprocessed entry changes nothing: the
feedback log, the history and the current prompt are all returned as they
are (the two "nothing to do" early returns). -/
lemma runImprovementPass_noop (fbs : List Feedback) (hist : List PromptVersion)
    (w : Nat) (oracle : String → Except String String) (now : String)
    (h : ((pySliceLastN fbs w).filter (fun f => !f.processed)).isEmpty = true) :
    runImprovementPass fbs hist w oracle now =
      { feedbacks := fbs, history := hist,
        returned_prompt := get_current_prompt hist,
        improvements :=
          if fbs.isEmpty then [noFeedbackMsg] else [alreadyProcessedMsg] } := by
  unfold runImprovementPass analyze_feedbacks
  by_cases hfb : fbs.isEmpty
  · simp [hfb]
  · simp [hfb, h]

/-- After a pass whose completion-service call succeeds, the window holds
no unprocessed entry. -/
lemma first_pass_consumes_window (fbs : List Feedback) (p : String) (w : Nat)
    (g : String → String) :
    ((pySliceLastN
        (analyze_feedbacks fbs p w (fun s => Except.ok (g s))).2.2 w).filter
      (fun f => !f.processed)).isEmpty = true := by
  unfold analyze_feedbacks
  by_cases hfb : fbs.isEmpty
  · have : fbs = [] := by simpa using hfb
    subst this
    simp [pySliceLastN_nil]
  · by_cases hrf : ((pySliceLastN fbs w).filter (fun f => !f.processed)).isEmpty
    · simp [hfb, hrf]
    · simp only [hfb, Bool.false_eq_true, if_false, hrf]
      rw [pySliceLastN_markWindowProcessed, filter_unprocessed_map_setProcessed]
      rfl

/-! ## Claim C1 -/

/-- C1: the improvement pass is idempotent with respect to
already-processed entries: after any pass whose completion-service call
succeeded, a second pass with no feedback added in between changes neither
the feedback log nor the prompt history — its returned prompt equals the
then-current prompt, so no new version is appended — because every entry
marked processed by the first pass is excluded from the second pass's
window selection (and this holds whatever the second pass's
completion-service stub would do). -/
theorem improvement_pass_idempotent (fbs : List Feedback)
    (hist : List PromptVersion) (w : Nat) (g : String → String)
    (now1 now2 : String) (oracle2 : String → Except String String) :
    (runImprovementPass
        (runImprovementPass fbs hist w (fun s => Except.ok (g s)) now1).feedbacks
        (runImprovementPass fbs hist w (fun s => Except.ok (g s)) now1).history
        w oracle2 now2).feedbacks =
      (runImprovementPass fbs hist w (fun s => Except.ok (g s)) now1).feedbacks ∧
    (runImprovementPass
        (runImprovementPass fbs hist w (fun s => Except.ok (g s)) now1).feedbacks
        (runImprovementPass fbs hist w (fun s => Except.ok (g s)) now1).history
        w oracle2 now2).history =
      (runImprovementPass fbs hist w (fun s => Except.ok (g s)) now1).history ∧
    (runImprovementPass
        (runImprovementPass fbs hist w (fun s => Except.ok (g s)) now1).feedbacks
        (runImprovementPass fbs hist w (fun s => Except.ok (g s)) now1).history
        w oracle2 now2).returned_prompt =
      get_current_prompt
        (runImprovementPass fbs hist w (fun s => Except.ok (g s)) now1).history := by
  have hfb1 : (runImprovementPass fbs hist w (fun s => Except.ok (g s)) now1).feedbacks =
      (analyze_feedbacks fbs (get_current_prompt hist) w
        (fun s => Except.ok (g s))).2.2 := by
    simp only [runImprovementPass]
    split <;> rfl
  have hwin : ((pySliceLastN
      (runImprovementPass fbs hist w (fun s => Except.ok (g s)) now1).feedbacks
        w).filter (fun f => !f.processed)).isEmpty = true := by
    rw [hfb1]
    exact first_pass_consumes_window fbs (get_current_prompt hist) w g
  have h2 := runImprovementPass_noop
    (runImprovementPass fbs hist w (fun s => Except.ok (g s)) now1).feedbacks
    (runImprovementPass fbs hist w (fun s => Except.ok (g s)) now1).history
    w oracle2 now2 hwin
  rw [h2]
  exact ⟨rfl, rfl, rfl⟩

/-! ## Claim C2 -/

lemma err_ne_noFeedbackMsg (e : String) :
    "Erro na análise: " ++ e ≠ noFeedbackMsg := by
  intro h
  have h1 : ("Erro na análise: " ++ e).data = noFeedbackMsg.data := by rw [h]
  rw [String.data_append] at h1
  have h2 : "Erro na análise: ".data = 'E' :: "rro na análise: ".data := rfl
  have h3 : noFeedbackMsg.data =
      'N' :: "enhuma melhoria aplicada - sem feedbacks".data := rfl
  rw [h2, h3, List.cons_append] at h1
  simp only [List.cons.injEq] at h1
  exact absurd h1.1 (by decide)

lemma err_ne_alreadyProcessedMsg (e : String) :
    "Erro na análise: " ++ e ≠ alreadyProcessedMsg := by
  intro h
  have h1 : ("Erro na análise: " ++ e).data = alreadyProcessedMsg.data := by rw [h]
  rw [String.data_append] at h1
  have h2 : "Erro na análise: ".data = 'E' :: "rro na análise: ".data := rfl
  have h3 : alreadyProcessedMsg.data =
      'F' :: "eedbacks já processados anteriormente".data := rfl
  rw [h2, h3, List.cons_append] at h1
  simp only [List.cons.injEq] at h1
  exact absurd h1.1 (by decide)

/-- C2: when the window holds at least one unprocessed entry and the
completion-service call raises, the pass is atomic: no `processed` flag
changes, the prompt store is unmutated (no new version, current prompt
text unchanged), the returned prompt is the current prompt, and the
returned improvement note — the caught error's message — differs from both
"nothing to do" notes. -/
theorem improvement_pass_atomic_on_failure (fbs : List Feedback)
    (hist : List PromptVersion) (w : Nat) (e now : String)
    (h : ((pySliceLastN fbs w).filter (fun f => !f.processed)).isEmpty = false) :
    runImprovementPass fbs hist w (fun _ => Except.error e) now =
      { feedbacks := fbs, history := hist,
        returned_prompt := get_current_prompt hist,
        improvements := ["Erro na análise: " ++ e] } ∧
    "Erro na análise: " ++ e ≠ noFeedbackMsg ∧
    "Erro na análise: " ++ e ≠ alreadyProcessedMsg := by
  have hfb : fbs.isEmpty = false := by
    cases hfbs : fbs.isEmpty
    · rfl
    · have : fbs = [] := by simpa using hfbs
      subst this
      rw [pySliceLastN_nil] at h
      simp at h
  refine ⟨?_, err_ne_noFeedbackMsg e, err_ne_alreadyProcessedMsg e⟩
  unfold runImprovementPass analyze_feedbacks
  simp [hfb, h]

/-- C2 witness: one unprocessed entry, a timing-out completion service. -/
theorem improvement_pass_atomic_on_failure_witness :
    runImprovementPass [sampleFeedback] (promptInit "t0") 5
        (fun _ => Except.error "Timeout") "t1" =
      { feedbacks := [sampleFeedback], history := promptInit "t0",
        returned_prompt := get_current_prompt (promptInit "t0"),
        improvements := ["Erro na análise: " ++ "Timeout"] } :=
  (improvement_pass_atomic_on_failure [sampleFeedback] (promptInit "t0") 5
    "Timeout" "t1" (by decide)).1

end BlueElephant
